import Mathlib

/-!
Verification of the requests-cgi repository's CGI/FastCGI protocol layer.

Bytes are modelled as natural numbers (each intended < 256); byte strings as
`List Nat`; decoded text (Python `str`) as `List Char`.  Fallible operations
(`struct.pack`/`unpack` range errors, stream parsing) return `Option` or
`Except`.  Python exceptions raised by the adapters are modelled by `PyErr`.
-/

namespace RequestsCgi

abbrev Bytes := List Nat
abbrev Text := List Char

/-! ## src/requests_cgi/fcgi_adapter/protocol.py -/

def FASTCGI_VERSION : Nat := 1

-- `RecordType` integer enumeration values (protocol.py lines 17-28).
-- `end` is a Lean keyword, hence `end_`.
namespace RecordType

def begin : Nat := 1
def abort : Nat := 2
def end_ : Nat := 3
def params : Nat := 4
def stdin : Nat := 5
def stdout : Nat := 6
def stderr : Nat := 7
def data : Nat := 8

end RecordType

/-- `State` enumeration (protocol.py lines 31-34). -/
inductive State where
  | send
  | error
  | success
deriving DecidableEq

/-- `RecordHeader` dataclass (protocol.py lines 39-58).  The `type` field is
kept as its integer value: `struct.unpack` returns a plain `int` and `IntEnum`
equality against `int` is value equality. -/
structure RecordHeader where
  version : Nat
  type : Nat
  request_id : Nat
  content_length : Nat
  padding_length : Nat
deriving DecidableEq

/-- `_HEADER_STRUCT.pack` for format `">BBHHBx"` (protocol.py line 38, used by
`RecordHeader.encode` lines 51-58): one pad byte `x` is written as zero, and
`struct.error` is raised when a field is out of range, modelled by `none`. -/
def RecordHeader.encode (h : RecordHeader) : Option Bytes :=
  if h.version < 256 ∧ h.type < 256 ∧ h.request_id < 65536 ∧
      h.content_length < 65536 ∧ h.padding_length < 256 then
    some [h.version, h.type,
          h.request_id / 256, h.request_id % 256,
          h.content_length / 256, h.content_length % 256,
          h.padding_length, 0]
  else
    none

/-- `RecordHeader.decode` (protocol.py lines 47-49): `_HEADER_STRUCT.unpack`
demands exactly 8 bytes (else `struct.error`, modelled by `none`), reads the
two `H` fields big-endian and discards the pad byte. -/
def RecordHeader.decode (data : Bytes) : Option RecordHeader :=
  match data with
  | [v, t, r1, r0, c1, c0, p, _] =>
      some ⟨v, t, r1 * 256 + r0, c1 * 256 + c0, p⟩
  | _ => none

/-- `Record` dataclass (protocol.py lines 61-102). -/
structure Record where
  header : RecordHeader
  content : Bytes
deriving DecidableEq

/-- `Record.create` (protocol.py lines 66-80): header carries the full
`len(content)` as `content_length` and zero padding; the content is never
split. -/
def Record.create (fcgi_type : Nat) (content : Bytes) (req_id : Nat) : Record :=
  ⟨⟨FASTCGI_VERSION, fcgi_type, req_id, content.length, 0⟩, content⟩

/-- `Record.encode` (protocol. py lines 101-102): header bytes, content, then
`padding_length` zero bytes; fails iff the header fails to pack. -/
def Record.encode (r : Record) : Option Bytes :=
  (r.header.encode).map
    (fun hbs => hbs ++ r.content ++ List.replicate r.header.padding_length 0)

/-- Big-endian 4-byte split used by `_UNSIGNED_LONG_STRUCT.pack` for format
`">L"` (protocol.py line 106).  Callers in the source only pack
`length | 0x80000000` values, which fit 32 bits for any real payload. -/
def packUL (x : Nat) : Bytes :=
  [x / 2 ^ 24 % 256, x / 2 ^ 16 % 256, x / 2 ^ 8 % 256, x % 256]

/-- `NameValue` dataclass (protocol.py lines 107-124). -/
structure NameValue where
  name : Bytes
  value : Bytes
deriving DecidableEq

/-- `NameValue.encode` (protocol.py lines 112-124): each length is emitted as
one byte when below 128, else as 4 big-endian bytes of `length | 0x80000000`;
then the name bytes and value bytes follow. -/
def NameValue.encode (nv : NameValue) : Bytes :=
  let len_name := nv.name.length
  let len_value := nv.value.length
  let lengths :=
    (if len_name < 128 then [len_name] else packUL (len_name ||| 0x80000000)) ++
    (if len_value < 128 then [len_value] else packUL (len_value ||| 0x80000000))
  lengths ++ nv.name ++ nv.value

/-- Modelled from the spec: the repository defines no decoder for name/value
pairs (only `NameValue.encode` exists in protocol.py).  Spec §3/§4.2: a length
whose first byte is below 128 is that byte; otherwise the length is the 4-byte
big-endian value with the top bit (the marker) cleared.  Returns the decoded
length and the remaining bytes. -/
def decodeNvLength : Bytes → Option (Nat × Bytes)
  | [] => none
  | b :: rest =>
      if b < 128 then some (b, rest)
      else
        match rest with
        | b1 :: b2 :: b3 :: rest2 =>
            some ((b % 128) * 2 ^ 24 + b1 * 2 ^ 16 + b2 * 2 ^ 8 + b3, rest2)
        | _ => none

/-- Modelled from the spec: decoder for one encoded `NameValue` (no decoder in
the source).  Spec §3: name length, value length, name bytes, value bytes,
concatenated with no separator.  Returns the pair and the remaining bytes. -/
def NameValue.decode (bs : Bytes) : Option (NameValue × Bytes) :=
  match decodeNvLength bs with
  | none => none
  | some (len_name, bs1) =>
    match decodeNvLength bs1 with
    | none => none
    | some (len_value, bs2) =>
        if len_name + len_value ≤ bs2.length then
          some (⟨bs2.take len_name, (bs2.drop len_name).take len_value⟩,
                (bs2.drop len_name).drop len_value)
        else none

/-- `BeginRequestBody(Role.responder).encode()` (protocol.py lines 132-139):
`_BEGIN_REQUEST_STRUCT.pack` with format `">HBxxxxx"` on role 1, flags 0. -/
def beginRequestResponderBody : Bytes := [0, 1, 0, 0, 0, 0, 0, 0]

/-! ## Model of the stdlib `http.client` parsing used by `CGIResponse.begin`

`CGIAdapter.build_response` (cgi_adapter.py lines 132-191) hands the raw bytes
to `CGIResponse` (cgi_response.py), whose `begin()` is inherited unchanged from
`http.client.HTTPResponse`.  The definitions below model that external
collaborator: status-line reading (`_read_status`), the 100-continue skip
loop, and RFC-822 header collection up to the first blank line, including the
`_MAXLINE` (65536) and `_MAXHEADERS` (100) limits.  Header-line parsing models
the lenient `email` parser: a line without a colon is dropped, the value after
the colon has leading whitespace and the trailing line terminator removed;
continuation lines are not modelled (no claim exercises them). -/

/-- Python whitespace characters as recognised by `str.split()`/`str.strip()`
on ASCII text. -/
def isPySpace (c : Char) : Bool :=
  c = ' ' || c = '\t' || c = '\n' || c = '\r' || c = '\x0b' || c = '\x0c'

/-- Strip Python whitespace from both ends (`str.strip()`). -/
def pyStrip (s : Text) : Text :=
  ((s.dropWhile isPySpace).reverse.dropWhile isPySpace).reverse

/-- Digit run of a Python integer literal body: decimal digits with single
underscores allowed only between digits (`int("1_2") == 12`, `int("1__2")`
and `int("1_")` raise `ValueError`). -/
def pyIntTail : Nat → Text → Option Nat
  | acc, [] => some acc
  | acc, '_' :: rest =>
      match rest with
      | c :: rest2 =>
          if c.isDigit then pyIntTail (acc * 10 + (c.toNat - 48)) rest2 else none
      | [] => none
  | acc, c :: rest =>
      if c.isDigit then pyIntTail (acc * 10 + (c.toNat - 48)) rest else none

/-- Model of Python `int(s)` on ASCII text: strip whitespace, optional sign,
then a digit run; anything else raises `ValueError` (modelled by `none`). -/
def pyInt (s : Text) : Option Int :=
  match pyStrip s with
  | '-' :: c :: rest =>
      if c.isDigit then (pyIntTail (c.toNat - 48) rest).map (fun n => -(n : Int))
      else none
  | '+' :: c :: rest =>
      if c.isDigit then (pyIntTail (c.toNat - 48) rest).map (fun n => (n : Int))
      else none
  | c :: rest =>
      if c.isDigit then (pyIntTail (c.toNat - 48) rest).map (fun n => (n : Int))
      else none
  | [] => none

/-- `fp.readline()`: the line up to (excluding) the next newline, and the
remaining input after it.  At end of input the pending partial line is
returned with empty rest. -/
def readLine : Text → Text × Text
  | [] => ([], [])
  | c :: rest =>
      if c = '\n' then ([], rest)
      else
        let (l, r) := readLine rest
        (c :: l, r)

/-- Does `s` start with `pre`?  (`bytes.startswith` / `str.startswith`.) -/
def textStarts (s pre : Text) : Bool :=
  match s, pre with
  | _, [] => true
  | [], _ :: _ => false
  | c :: s2, p :: ps => c = p && textStarts s2 ps

/-- First whitespace-delimited token of `l` and the remainder after it
(one step of `str.split(None, maxsplit)`). -/
def takeTok (l : Text) : Text × Text :=
  (l.takeWhile (fun c => !isPySpace c), l.dropWhile (fun c => !isPySpace c))

/-- `HTTPResponse._read_status` applied to one status line (terminator already
removed), together with `begin()`'s protocol-version classification:
`line.split(None, 2)` into version, status and reason; `BadStatusLine` unless
the version starts with `HTTP/`, the status token parses as an int in
100..999, and the version is an `HTTP/1.x` or `HTTP/0.9` version
(`UnknownProtocol` otherwise).  The reason phrase is returned stripped. -/
def readStatus (line : Text) : Option (Nat × Text) :=
  let r0 := line.dropWhile isPySpace
  let (version, r1) := takeTok r0
  let (statusTok, r2) := takeTok (r1.dropWhile isPySpace)
  let reason := pyStrip r2
  if !textStarts version ("HTTP/").data then none
  else if statusTok = [] then none
  else
    match pyInt statusTok with
    | none => none
    | some st =>
        if st < 100 ∨ 999 < st then none
        else if version = ("HTTP/1.0").data ∨ version = ("HTTP/0.9").data ∨
            textStarts version ("HTTP/1.").data then
          some (st.toNat, reason)
        else none

/-- One header line split at its first colon (`none` when the line has no
colon; such defective lines are dropped by the lenient parser model). -/
def splitColon : Text → Option (Text × Text)
  | [] => none
  | c :: rest =>
      if c = ':' then some ([], rest)
      else (splitColon rest).map (fun p => (c :: p.1, p.2))

/-- Header value normalisation: leading whitespace after the colon and the
trailing carriage return (the newline is already consumed) are removed. -/
def headerValue (v : Text) : Text :=
  ((v.dropWhile isPySpace).reverse.dropWhile (fun c => c = '\r' || c = '\n')).reverse

/-- `http.client.parse_headers`: collect header lines until a blank line
(`""`, `"\n"` or `"\r\n"`) or end of input, enforcing `_MAXLINE` per line and
at most `_MAXHEADERS` (100) collected lines (the terminating blank line
counts).  Returns the headers in order and the unread remainder (the body). -/
def parseHeadersAux (count : Nat) (cur : Text) :
    Text → Option (List (Text × Text) × Text)
  | [] =>
      -- end of input: the pending partial line (if any) is a final header
      -- line, then `readline` yields b'' which also counts toward the limit
      -- before the loop breaks
      if cur = [] then (if 100 < count + 1 then none else some ([], []))
      else if 65536 < cur.length then none
      else if 100 < count + 1 then none
      else if 100 < count + 2 then none
      else
        match splitColon cur.reverse with
        | none => some ([], [])
        | some (n, v) => some ([(n, headerValue v)], [])
  | c :: rest =>
      if c = '\n' then
        let line := cur.reverse
        if 65536 ≤ line.length then none
        else if 100 < count + 1 then none
        else if line = [] ∨ line = ['\r'] then some ([], rest)
        else
          match parseHeadersAux (count + 1) [] rest with
          | none => none
          | some (hs, body) =>
              match splitColon line with
              | none => some (hs, body)
              | some (n, v) => some ((n, headerValue v) :: hs, body)
      else
        parseHeadersAux count (c :: cur) rest

/-- `begin()`'s 100-continue skip loop: discard lines until one strips to
empty (each line subject to `_MAXLINE`), returning the remaining input;
`cur` accumulates the current line in reverse. -/
def skipContinueHeadersAux (cur : Text) : Text → Option Text
  | [] => if 65536 < cur.length then none else some []
  | c :: rest =>
      if c = '\n' then
        if 65536 ≤ cur.length then none
        else if pyStrip cur.reverse = [] then some rest
        else skipContinueHeadersAux [] rest
      else skipContinueHeadersAux (c :: cur) rest

def skipContinueHeaders (input : Text) : Option Text :=
  skipContinueHeadersAux [] input

/-- Result of a successful `CGIResponse.begin()`: status code, stripped reason
phrase, ordered header list, and the unread remainder of the stream (the
response body as exposed through `response.raw`). -/
structure ParsedHttp where
  status : Nat
  reason : Text
  headers : List (Text × Text)
  body : Text
deriving DecidableEq

/-- `CGIResponse.begin()` on a whole input: read a status line (`_MAXLINE`
checked), loop past 100-continue responses, then collect headers; `none`
models an `HTTPException`.  `fuel` bounds the 100-continue loop. -/
def httpParseAux : Nat → Text → Option ParsedHttp
  | 0, _ => none
  | fuel + 1, input =>
      let (line, rest) := readLine input
      if 65536 ≤ line.length then none
      else
        match readStatus line with
        | none => none
        | some (st, reason) =>
            if st = 100 then
              match skipContinueHeaders rest with
              | none => none
              | some rest2 => httpParseAux fuel rest2
            else
              match parseHeadersAux 0 [] rest with
              | none => none
              | some (hs, body) => some ⟨st, reason, hs, body⟩

/-- `CGIResponse.begin()`; the fuel suffices because every 100-continue
iteration consumes at least one input character. -/
def httpParse (input : Text) : Option ParsedHttp :=
  httpParseAux (input.length + 1) input

/-! ## src/requests_cgi/cgi_adapter.py -/

/-- The exceptions the adapters raise: `requests.exceptions.ConnectionError`
with its positional arguments, and `requests.exceptions.ReadTimeout`. -/
inductive PyErr where
  | connectionError (args : List Text)
  | readTimeout
deriving DecidableEq

/-- The observable parts of the `requests.Response` built by
`CGIAdapter.build_response`: status code, reason, headers and the unread raw
body.  (`status_code` is an `Int` because it is whatever Python `int` parsed
from a `Status` header.) -/
structure RespModel where
  status_code : Int
  reason : Text
  headers : List (Text × Text)
  body : Text
deriving DecidableEq

/-- Lookup in `CaseInsensitiveDict(headers)` (cgi_adapter.py line 152): keys
compare lower-cased.  Building the dict from a parsed message goes through
`MutableMapping.update`, which fetches each value via
`Message.__getitem__` — the *first* case-insensitive match — so when a header
is duplicated the first occurrence's value is the one every lookup returns. -/
def ciLookup (hs : List (Text × Text)) (key : Text) : Option Text :=
  (hs.find? (fun h => h.1.map Char.toLower = key.map Char.toLower)).map (·.2)

/-- `CGIAdapter.build_response` (cgi_adapter.py lines 132-191): raw output not
starting with `HTTP/` is CGI-headers mode, handled by prepending the
placeholder status line `HTTP/1.1 200\n` before the standard HTTP parse; an
`HTTPException` during parsing becomes a bare `ConnectionError`.  In
CGI-headers mode the status is taken from a (case-insensitively named)
`Status` header when one is present and non-empty: `int(status[:3])` with a
`ConnectionError("Could not parse status header: ...")` on `ValueError`, and
`status[4:]` as the reason; with no such header the status defaults to 200
with reason `Okay`. -/
def build_response (raw : Text) : Except PyErr RespModel :=
  let is_parsed_mode := !textStarts raw ("HTTP/").data
  let raw2 := if is_parsed_mode then ("HTTP/1.1 200\n").data ++ raw else raw
  match httpParse raw2 with
  | none => Except.error (PyErr.connectionError [])
  | some p =>
      if is_parsed_mode then
        let status := (ciLookup p.headers ("status").data).getD []
        if status = [] then
          Except.ok ⟨200, ("Okay").data, p.headers, p.body⟩
        else
          match pyInt (status.take 3) with
          | none =>
              Except.error (PyErr.connectionError
                [("Could not parse status header: ").data ++ status])
          | some code => Except.ok ⟨code, status.drop 4, p.headers, p.body⟩
      else
        Except.ok ⟨(p.status : Int), p.reason, p.headers, p.body⟩

/-! ### CGI environment construction -/

/-- An ordered string dictionary with Python `dict` update semantics. -/
abbrev Env := List (Text × Text)

/-- `d[key] = value`: overwrite in place when the key exists, else append. -/
def dictSet (d : Env) (key value : Text) : Env :=
  match d with
  | [] => [(key, value)]
  | (k, v) :: rest =>
      if k = key then (k, value) :: rest else (k, v) :: dictSet rest key value

/-- `d.get(key)`: exact-key lookup. -/
def dictGet (d : Env) (key : Text) : Option Text :=
  (d.find? (fun h => h.1 = key)).map (·.2)

/-- `d.update(other)`: set each of `other`'s items in order. -/
def dictUpdate (d : Env) (other : Env) : Env :=
  other.foldl (fun acc kv => dictSet acc kv.1 kv.2) d

/-- `f"HTTP_{key.upper().replace('-', '_')}"` (cgi_adapter.py line 121). -/
def headerEnvKey (key : Text) : Text :=
  ("HTTP_").data ++ key.map (fun c => if c = '-' then '_' else c.toUpper)

/-- The inbound HTTP request as the adapter sees it (the external
`requests.PreparedRequest` collaborator): the URL components used by
`_cgi_env_helper` are carried pre-parsed (they come from stdlib `urlparse`),
headers are an ordered case-insensitively-unique mapping, and `body` is the
optional body, already serialized to bytes (`str` bodies are encoded). -/
structure PreparedRequest where
  method : Text
  url_hostname : Text
  path_url : Text
  url_query : Text
  headers : List (Text × Text)
  body : Option Bytes

/-- `CGIAdapter._cgi_env_helper` (cgi_adapter.py lines 93-122): the fixed
CGI/1.1 keys seeded from the URL and method, then one `HTTP_<NAME>` entry per
request header. -/
def cgiEnvHelper (r : PreparedRequest) : Env :=
  let env : Env :=
    [(("HTTP_HOST").data, r.url_hostname),
     (("PATH_INFO").data, r.path_url),
     (("QUERY_STRING").data, r.url_query),
     (("REMOTE_ADDR").data, ("127.0.0.1").data),
     (("REMOTE_HOST").data, r.url_hostname),
     (("REQUEST_METHOD").data, r.method),
     (("SCRIPT_NAME").data, ("/").data),
     (("SERVER_NAME").data, r.url_hostname),
     (("SERVER_PROTOCOL").data, ("HTTP/1.1").data),
     (("GATEWAY_INTERFACE").data, ("CGI/1.1").data)]
  r.headers.foldl (fun env kv => dictSet env (headerEnvKey kv.1) kv.2) env

/-- `CGIAdapter.build_cgi_env` (cgi_adapter.py lines 79-91) for a plain
`CGIAdapter` instance: the single `_cgi_env_helper` contribution in the MRO,
then `override_env` merged last when given. -/
def build_cgi_env (r : PreparedRequest) (override_env : Option Env) : Env :=
  let env := dictUpdate [] (cgiEnvHelper r)
  match override_env with
  | none => env
  | some ov => dictUpdate env ov

/-- `CGIAdapter.build_cgi_stdin` (cgi_adapter.py lines 124-130): the serialized
body when the body is truthy (present and non-empty), else `None`. -/
def build_cgi_stdin (r : PreparedRequest) : Option Bytes :=
  match r.body with
  | some b => if b = [] then none else some b
  | none => none

/-- `request.headers.get('Content-Type', 'text/plain')` (cgi_adapter.py
line 53): case-insensitive lookup with a default. -/
def contentTypeOf (r : PreparedRequest) : Text :=
  (ciLookup r.headers ("Content-Type").data).getD ("text/plain").data

/-- `str(len(stdin))` for the byte length. -/
def pyStrOfNat (n : Nat) : Text := (toString n).data

/-- The environment and stdin that `CGIAdapter.send` (cgi_adapter.py lines
44-58) hands to `execute_send`: when `build_cgi_stdin` is `None` an empty body
is sent and the environment is left alone; otherwise `CONTENT_LENGTH` is set
to the exact stdin byte length and `CONTENT_TYPE` to the request's
content-type header or the `text/plain` default. -/
def sendPrepare (r : PreparedRequest) (override_env : Option Env) : Env × Bytes :=
  let env := build_cgi_env r override_env
  match build_cgi_stdin r with
  | none => (env, [])
  | some stdin =>
      let env := dictSet env (("CONTENT_LENGTH").data) (pyStrOfNat stdin.length)
      let env := dictSet env (("CONTENT_TYPE").data) (contentTypeOf r)
      (env, stdin)

/-! ### Plain-CGI subprocess execution -/

/-- Outcome of `subprocess.run(..., capture_output=True, check=True,
timeout=timeout)`: either the child completed (with its exit code and captured
streams) or the timeout expired. -/
inductive RunOutcome where
  | completed (returncode : Int) (stdout : Text) (stderr : Text)
  | timedOut

/-- `CGIAdapter.execute_send` (cgi_adapter.py lines 60-74): a nonzero exit
raises `CalledProcessError`, caught to retry `build_response` on the captured
stdout when that is non-empty — any exception there falls through to
`ConnectionError(e.stderr, e.stdout)`, as does empty stdout.  A timeout maps
to `ReadTimeout`.  A zero exit parses the captured stdout directly. -/
def execute_send (outcome : RunOutcome) : Except PyErr RespModel :=
  match outcome with
  | .timedOut => Except.error PyErr.readTimeout
  | .completed rc out err =>
      if rc ≠ 0 then
        if out ≠ [] then
          match build_response out with
          | Except.ok resp => Except.ok resp
          | Except.error _ => Except.error (PyErr.connectionError [err, out])
        else Except.error (PyErr.connectionError [err, out])
      else build_response out

/-! ## src/requests_cgi/fcgi_adapter/__init__.py -/

/-- `ActiveRequest` dataclass (fcgi_adapter/__init__.py lines 13-17). -/
structure ActiveRequest where
  id : Nat
  state : State
  content : Bytes
deriving DecidableEq

/-- One iteration of the `await_response` receive loop (fcgi_adapter/
__init__.py lines 96-108) applied to the exchange's `ActiveRequest`: records
with a different request ID are ignored; a stdout record appends its content;
a stderr record marks the state `error` and (its inner, always-true ID check
repeated from the source) appends its content; an end record promotes the
state to `success` unless it is already `error`. -/
def awaitStep (req_id : Nat) (ar : ActiveRequest) (r : Record) : ActiveRequest :=
  if req_id ≠ r.header.request_id then ar
  else
    let ar1 :=
      if r.header.type = RecordType.stdout then
        { ar with content := ar.content ++ r.content }
      else ar
    let ar2 :=
      if r.header.type = RecordType.stderr then
        { ar1 with
          state := State.error,
          content :=
            if req_id = r.header.request_id then ar1.content ++ r.content
            else ar1.content }
      else ar1
    if r.header.type = RecordType.end_ then
      if ar2.state ≠ State.error then { ar2 with state := State.success } else ar2
    else ar2

/-- The receive loop of `await_response` (lines 85-109) over the stream's
decoded records (the loop ends when `Record.read_from_stream` yields `None`,
i.e. when the list is exhausted), starting from the `ActiveRequest` stored at
line 77. -/
def awaitLoop (req_id : Nat) (records : List Record) : ActiveRequest :=
  records.foldl (awaitStep req_id) ⟨req_id, State.send, []⟩

/-- Bytes arriving from the FastCGI stream are decoded latin-1 style for the
response parser. -/
def bytesToChars (bs : Bytes) : Text := bs.map Char.ofNat

/-- The tail of `FastCGIAdapter.execute_send` (lines 78-83): after the receive
loop, a `success` exchange's accumulated content goes to `build_response`;
anything else raises `ConnectionError('Invalid response')`. -/
def fcgiFinish (req_id : Nat) (records : List Record) : Except PyErr RespModel :=
  let response := awaitLoop req_id records
  if response.state = State.success then build_response (bytesToChars response.content)
  else Except.error (PyErr.connectionError [("Invalid response").data])

/-! ### Request-ID lifecycle -/

/-- The in-flight tracking table `self.requests`, initialised to `[None]`
(line 29); index 0 is never used (ID 0 is reserved for management records). -/
abbrev RequestTable := List (Option ActiveRequest)

/-- `self.requests.index(None, 1)`: index of the first `None` at or after
position 1, or `none` (`ValueError`). -/
def indexNoneFrom1 (reqs : RequestTable) : Option Nat :=
  match reqs with
  | [] => none
  | _ :: rest => (rest.findIdx? (fun slot => slot = none)).map (· + 1)

/-- The ID-acquisition step of `execute_send` (lines 52-57): the lowest
request ID ≥ 1 whose slot is free, growing the table by one free slot when
none is. -/
def acquireReqId (reqs : RequestTable) : Nat × RequestTable :=
  match indexNoneFrom1 reqs with
  | some i => (i, reqs)
  | none => (reqs.length, reqs ++ [none])

/-- One whole FastCGI exchange as it touches the request table:
`execute_send` acquires an ID (lines 52-57), stores a fresh `ActiveRequest` in
the slot (line 77), runs the receive loop, and `await_response` clears the
slot before returning the finished request (lines 110-114).  Returns the
finished `ActiveRequest`, the acquired ID, and the table afterwards. -/
def runExchange (reqs : RequestTable) (records : List Record) :
    ActiveRequest × Nat × RequestTable :=
  let (req_id, reqs1) := acquireReqId reqs
  let reqs2 := reqs1.set req_id (some ⟨req_id, State.send, []⟩)
  let response := awaitLoop req_id records
  (response, req_id, reqs2.set req_id none)

/-! ### Packet assembly -/

/-- `name.encode('ascii')` / `value.encode('ascii')` on header-style text. -/
def textToBytes (s : Text) : Bytes := s.map Char.toNat

/-- The params byte string of `execute_send` (lines 63-66): every environment
pair's `NameValue` encoding, concatenated flat. -/
def encodeEnvParams (env : Env) : Bytes :=
  env.foldl (fun acc kv =>
    acc ++ (NameValue.mk (textToBytes kv.1) (textToBytes kv.2)).encode) []

/-- The packet assembly of `FastCGIAdapter.execute_send` (lines 58-74): one
begin-request record, the whole encoded environment in a single params record
(when non-empty) followed by the mandatory empty params record, then the whole
body in a single stdin record (when truthy) followed by the mandatory empty
stdin record.  `none` models any `struct.error` raised while packing a record
header. -/
def buildPacket (env : Env) (stdin : Option Bytes) (req_id : Nat) : Option Bytes :=
  (Record.create RecordType.begin beginRequestResponderBody req_id).encode.bind fun r1 =>
    (if 0 < (encodeEnvParams env).length then
        (Record.create RecordType.params (encodeEnvParams env) req_id).encode
      else some []).bind fun r2 =>
      ((Record.create RecordType.params [] req_id).encode).bind fun r3 =>
        (match stdin with
          | some b =>
              if b ≠ [] then (Record.create RecordType.stdin b req_id).encode
              else some []
          | none => some []).bind fun r4 =>
          ((Record.create RecordType.stdin [] req_id).encode).bind fun r5 =>
            some (r1 ++ r2 ++ r3 ++ r4 ++ r5)

/-- Concrete fixture: a GET request carrying a present but empty body. -/
def emptyBodyRequest : PreparedRequest :=
  ⟨("GET").data, ("localhost").data, ("/").data, [], [], some []⟩

/-- Concrete fixture: a POST request with a 2-byte body and a content-type
header. -/
def jsonBodyRequest : PreparedRequest :=
  ⟨("POST").data, ("localhost").data, ("/").data, [],
   [(("Content-Type").data, ("application/json").data)], some [104, 105]⟩

/-- The length-encoding rule as the spec words it (C2): a length below 128 is
one byte equal to the length; otherwise four bytes equal to the big-endian
length with bit 31 set, i.e. the big-endian bytes of `2 ^ 31 + length`. -/
def specLengthBytes (l : Nat) : Bytes :=
  if l < 128 then [l]
  else [(2 ^ 31 + l) / 2 ^ 24 % 256, (2 ^ 31 + l) / 2 ^ 16 % 256,
        (2 ^ 31 + l) / 2 ^ 8 % 256, (2 ^ 31 + l) % 256]

/-! ## Theorems -/

/-- Setting bit 31 by `or` is addition of `2 ^ 31` for values below it. -/
theorem lor_high {l : Nat} (h : l < 2 ^ 31) : l ||| 2147483648 = 2 ^ 31 + l := by
  rw [Nat.or_comm]
  have h2 := (Nat.mul_add_lt_is_or (i := 31) h 1).symm
  rw [Nat.mul_one] at h2
  exact h2

theorem decodeNvLength_small {l : Nat} (h : l < 128) (rest : Bytes) :
    decodeNvLength (l :: rest) = some (l, rest) := by
  simp [decodeNvLength, h]

theorem decodeNvLength_large {l : Nat} (h31 : l < 2 ^ 31) (rest : Bytes) :
    decodeNvLength (packUL (l ||| 2147483648) ++ rest) = some (l, rest) := by
  rw [lor_high h31]
  have hpow : (2 : Nat) ^ 31 = 2147483648 := by norm_num
  have hb : ¬ (2 ^ 31 + l) / 2 ^ 24 % 256 < 128 := by
    rw [hpow] at *; omega
  simp only [packUL, List.cons_append, List.nil_append, decodeNvLength, hb, if_false]
  have harith : (2 ^ 31 + l) / 2 ^ 24 % 256 % 128 * 2 ^ 24 +
      (2 ^ 31 + l) / 2 ^ 16 % 256 * 2 ^ 16 +
      (2 ^ 31 + l) / 2 ^ 8 % 256 * 2 ^ 8 + (2 ^ 31 + l) % 256 = l := by
    rw [hpow] at *; omega
  rw [harith]

/-- Decoding one encoded length recovers the length and leaves the rest. -/
theorem decode_lengthBytes {l : Nat} (h31 : l < 2 ^ 31) (rest : Bytes) :
    decodeNvLength ((if l < 128 then [l] else packUL (l ||| 2147483648)) ++ rest) =
      some (l, rest) := by
  by_cases h : l < 128
  · simp only [h, if_true, List.cons_append, List.nil_append]
    exact decodeNvLength_small h rest
  · simp only [h, if_false]
    exact decodeNvLength_large h31 rest

/-- Round-trip for name/value pairs with lengths below `2 ^ 31`. -/
theorem nameValue_decode_encode (nv : NameValue)
    (hn : nv.name.length < 2 ^ 31) (hv : nv.value.length < 2 ^ 31) :
    NameValue.decode nv.encode = some (nv, []) := by
  have henc : nv.encode =
      (if nv.name.length < 128 then [nv.name.length]
        else packUL (nv.name.length ||| 2147483648)) ++
      ((if nv.value.length < 128 then [nv.value.length]
        else packUL (nv.value.length ||| 2147483648)) ++ (nv.name ++ nv.value)) := by
    show ((if nv.name.length < 128 then [nv.name.length]
        else packUL (nv.name.length ||| 2147483648)) ++
      (if nv.value.length < 128 then [nv.value.length]
        else packUL (nv.value.length ||| 2147483648))) ++ nv.name ++ nv.value = _
    rw [List.append_assoc, List.append_assoc]
  rw [henc, NameValue.decode, decode_lengthBytes hn]
  simp only [decode_lengthBytes hv]
  simp only [List.length_append, List.take_left, List.drop_left,
    List.take_length, List.drop_length, le_refl, if_true]

/-- C1: for every `RecordHeader` whose fields are within their wire ranges,
`decode (encode h) = h` with `encode` the fixed 8-byte big-endian layout; and
for every `NameValue` with name/value lengths in `{0, 1, 127, 128, 300}`,
decoding the encoding yields the original pair (against the spec-modelled
decoder, the source defining none). -/
theorem recordHeader_and_nameValue_roundtrip (h : RecordHeader) (nv : NameValue)
    (hver : h.version ≤ 255) (htype : h.type ≤ 255)
    (hreq : h.request_id ≤ 65535) (hcon : h.content_length ≤ 65535)
    (hpad : h.padding_length ≤ 255)
    (hn : nv.name.length ∈ [0, 1, 127, 128, 300])
    (hv : nv.value.length ∈ [0, 1, 127, 128, 300]) :
    (∃ bs, h.encode = some bs ∧ bs.length = 8 ∧ RecordHeader.decode bs = some h) ∧
      NameValue.decode nv.encode = some (nv, []) := by
  constructor
  · have hrange : h.version < 256 ∧ h.type < 256 ∧ h.request_id < 65536 ∧
        h.content_length < 65536 ∧ h.padding_length < 256 := by omega
    refine ⟨[h.version, h.type, h.request_id / 256, h.request_id % 256,
        h.content_length / 256, h.content_length % 256, h.padding_length, 0],
      ?_, ?_, ?_⟩
    · rw [RecordHeader.encode, if_pos hrange]
    · rfl
    · show RecordHeader.decode [h.version, h.type,
        h.request_id / 256, h.request_id % 256,
        h.content_length / 256, h.content_length % 256,
        h.padding_length, 0] = some h
      rw [RecordHeader.decode]
      have e1 : h.request_id / 256 * 256 + h.request_id % 256 = h.request_id := by omega
      have e2 : h.content_length / 256 * 256 + h.content_length % 256 =
          h.content_length := by omega
      rw [e1, e2]
  · have hpow : (2147483648 : Nat) = 2 ^ 31 := by norm_num
    have hn31 : nv.name.length < 2 ^ 31 := by
      simp only [List.mem_cons, List.not_mem_nil, or_false] at hn
      rw [← hpow]
      omega
    have hv31 : nv.value.length < 2 ^ 31 := by
      simp only [List.mem_cons, List.not_mem_nil, or_false] at hv
      rw [← hpow]
      omega
    exact nameValue_decode_encode nv hn31 hv31

/-- Witness for C1 at a concrete header and a pair with a 128-byte name and a
300-byte value. -/
theorem recordHeader_and_nameValue_roundtrip_witness :
    (∃ bs, (RecordHeader.mk 1 6 4660 48879 7).encode = some bs ∧ bs.length = 8 ∧
        RecordHeader.decode bs = some (RecordHeader.mk 1 6 4660 48879 7)) ∧
      NameValue.decode (NameValue.mk (List.replicate 128 65) (List.replicate 300 66)).encode =
        some (NameValue.mk (List.replicate 128 65) (List.replicate 300 66), []) :=
  recordHeader_and_nameValue_roundtrip _ _
    (by decide) (by decide) (by decide) (by decide) (by decide)
    (by simp only [List.length_replicate]; decide)
    (by simp only [List.length_replicate]; decide)

/-- C2: for every `NameValue` (lengths below `2 ^ 31`, the range the 31-bit
switch can represent), the encoding is the name length's one-or-four-byte
big-endian bit-31-marked encoding, then the value length's, then the name
bytes, then the value bytes, with no separator. -/
theorem nameValue_encode_layout (nv : NameValue)
    (hn : nv.name.length < 2 ^ 31) (hv : nv.value.length < 2 ^ 31) :
    nv.encode = specLengthBytes nv.name.length ++ specLengthBytes nv.value.length ++
      nv.name ++ nv.value := by
  show ((if nv.name.length < 128 then [nv.name.length]
      else packUL (nv.name.length ||| 2147483648)) ++
    (if nv.value.length < 128 then [nv.value.length]
      else packUL (nv.value.length ||| 2147483648))) ++ nv.name ++ nv.value = _
  have he : ∀ l : Nat, l < 2 ^ 31 →
      (if l < 128 then [l] else packUL (l ||| 2147483648)) = specLengthBytes l := by
    intro l hl
    by_cases h : l < 128
    · simp [h, specLengthBytes]
    · simp only [h, if_false, specLengthBytes, packUL, lor_high hl]
  rw [he _ hn, he _ hv, List.append_assoc, List.append_assoc]

/-! ### Dictionary lemmas -/

theorem dictGet_dictSet_self (d : Env) (k v : Text) :
    dictGet (dictSet d k v) k = some v := by
  induction d with
  | nil => simp [dictSet, dictGet, List.find?]
  | cons hd tl ih =>
      obtain ⟨k', v'⟩ := hd
      by_cases h : k' = k
      · simp [dictSet, dictGet, List.find?, h]
      · simpa [dictSet, dictGet, List.find?, h] using ih

theorem dictGet_dictSet_ne (d : Env) {k key : Text} (v : Text) (h : k ≠ key) :
    dictGet (dictSet d k v) key = dictGet d key := by
  induction d with
  | nil => simp [dictSet, dictGet, List.find?, h]
  | cons hd tl ih =>
      obtain ⟨k', v'⟩ := hd
      by_cases hk : k' = k
      · subst hk
        simp [dictSet, dictGet, List.find?, h]
      · by_cases hkey : k' = key
        · subst hkey
          simp [dictSet, dictGet, List.find?, hk, Ne.symm h]
        · simpa [dictSet, dictGet, List.find?, hk, hkey] using ih

theorem mem_dictSet_key {d : Env} {k v : Text} {kv : Text × Text}
    (h : kv ∈ dictSet d k v) : kv.1 = k ∨ ∃ w, (kv.1, w) ∈ d := by
  induction d with
  | nil =>
      simp only [dictSet, List.mem_singleton] at h
      left; rw [h]
  | cons hd tl ih =>
      obtain ⟨k', v'⟩ := hd
      by_cases hk : k' = k
      · simp only [dictSet, hk, if_true, List.mem_cons] at h
        rcases h with h | h
        · left; rw [h]
        · right; exact ⟨kv.2, List.mem_cons_of_mem _ h⟩
      · simp only [dictSet, hk, if_false, List.mem_cons] at h
        rcases h with h | h
        · right; exact ⟨v', by rw [h]; exact List.mem_cons_self _ _⟩
        · rcases ih h with h1 | ⟨w, hw⟩
          · left; exact h1
          · right; exact ⟨w, List.mem_cons_of_mem _ hw⟩

theorem mem_foldl_dictSet {f g : Text × Text → Text} {l : List (Text × Text)}
    {d : Env} {kv : Text × Text}
    (h : kv ∈ l.foldl (fun env x => dictSet env (f x) (g x)) d) :
    (∃ x ∈ l, f x = kv.1) ∨ ∃ w, (kv.1, w) ∈ d := by
  induction l generalizing d with
  | nil => right; exact ⟨kv.2, by simpa using h⟩
  | cons x xs ih =>
      simp only [List.foldl_cons] at h
      rcases ih h with ⟨y, hy, hfy⟩ | ⟨w, hw⟩
      · left; exact ⟨y, List.mem_cons_of_mem _ hy, hfy⟩
      · rcases mem_dictSet_key hw with h1 | ⟨w', hw'⟩
        · left; exact ⟨x, List.mem_cons_self _ _, h1.symm⟩
        · right; exact ⟨w', hw'⟩

theorem dictGet_eq_none_of_keys_ne {d : Env} {key : Text}
    (h : ∀ kv ∈ d, kv.1 ≠ key) : dictGet d key = none := by
  rw [dictGet]
  cases hf : d.find? (fun p => p.1 = key) with
  | none => rfl
  | some kv =>
      have hp := List.find?_some hf
      have hmem := List.mem_of_find?_eq_some hf
      simp only [decide_eq_true_eq] at hp
      exact absurd hp (h _ hmem)

/-- Keys produced by the `HTTP_` transformation never collide with the
body-derived keys. -/
theorem headerEnvKey_ne_content (k : Text) :
    headerEnvKey k ≠ ("CONTENT_LENGTH").data ∧
      headerEnvKey k ≠ ("CONTENT_TYPE").data := by
  constructor <;>
    · intro h
      injection h with h1 _
      exact absurd h1 (by decide)

/-- Every key of the built CGI environment is a fixed CGI/1.1 key, an
`HTTP_`-transformed header key, or an override key. -/
theorem build_cgi_env_key_shape {r : PreparedRequest} {ov : Option Env}
    {kv : Text × Text} (h : kv ∈ build_cgi_env r ov) :
    kv.1 ∈ [("HTTP_HOST").data, ("PATH_INFO").data, ("QUERY_STRING").data,
        ("REMOTE_ADDR").data, ("REMOTE_HOST").data, ("REQUEST_METHOD").data,
        ("SCRIPT_NAME").data, ("SERVER_NAME").data, ("SERVER_PROTOCOL").data,
        ("GATEWAY_INTERFACE").data] ∨
      (∃ t, kv.1 = headerEnvKey t) ∨
      (∃ e, ov = some e ∧ ∃ w, (kv.1, w) ∈ e) := by
  have step : ∀ p : Text × Text, p ∈ dictUpdate [] (cgiEnvHelper r) →
      p.1 ∈ [("HTTP_HOST").data, ("PATH_INFO").data, ("QUERY_STRING").data,
        ("REMOTE_ADDR").data, ("REMOTE_HOST").data, ("REQUEST_METHOD").data,
        ("SCRIPT_NAME").data, ("SERVER_NAME").data, ("SERVER_PROTOCOL").data,
        ("GATEWAY_INTERFACE").data] ∨ (∃ t, p.1 = headerEnvKey t) := by
    intro p hm
    rcases mem_foldl_dictSet (f := Prod.fst) (g := Prod.snd) hm with ⟨y, hy, hfy⟩ | ⟨w, hw⟩
    · -- a key of `cgiEnvHelper r`
      rcases mem_foldl_dictSet (f := fun x => headerEnvKey x.1) (g := Prod.snd) hy
          with ⟨z, _, hfz⟩ | ⟨w', hw'⟩
      · right; exact ⟨z.1, by rw [← hfy, ← hfz]⟩
      · left
        rw [← hfy]
        simp only [List.mem_cons, List.not_mem_nil, or_false, Prod.mk.injEq] at hw'
        simp only [List.mem_cons, List.not_mem_nil, or_false]
        tauto
    · simp at hw
  cases ov with
  | none =>
      have h2 : kv ∈ dictUpdate [] (cgiEnvHelper r) := h
      rcases step kv h2 with h1 | h1
      · exact Or.inl h1
      · exact Or.inr (Or.inl h1)
  | some e =>
      have h2 : kv ∈ dictUpdate (dictUpdate [] (cgiEnvHelper r)) e := h
      rcases mem_foldl_dictSet (f := Prod.fst) (g := Prod.snd) h2 with ⟨y, hy, hfy⟩ | ⟨w, hw⟩
      · exact Or.inr (Or.inr ⟨e, rfl, y.2, by rw [← hfy]; exact hy⟩)
      · rcases step (kv.1, w) hw with h1 | h1
        · exact Or.inl h1
        · exact Or.inr (Or.inl h1)

/-- The environment built by `build_cgi_env` never carries the body-derived
keys itself: only `send`'s body branch or an override can add them. -/
theorem build_cgi_env_no_content_keys (r : PreparedRequest) (ov : Option Env)
    (hov : ∀ e, ov = some e → ∀ kv ∈ e,
      kv.1 ≠ ("CONTENT_LENGTH").data ∧ kv.1 ≠ ("CONTENT_TYPE").data) :
    dictGet (build_cgi_env r ov) (("CONTENT_LENGTH").data) = none ∧
      dictGet (build_cgi_env r ov) (("CONTENT_TYPE").data) = none := by
  constructor <;>
  · apply dictGet_eq_none_of_keys_ne
    intro kv hm
    rcases build_cgi_env_key_shape hm with h1 | ⟨t, ht⟩ | ⟨e, he, w, hw⟩
    · simp only [List.mem_cons, List.not_mem_nil, or_false] at h1
      rcases h1 with h | h | h | h | h | h | h | h | h | h <;> · rw [h]; decide
    · rw [ht]
      first
      | exact (headerEnvKey_ne_content t).1
      | exact (headerEnvKey_ne_content t).2
    · intro hc
      have := hov e he (kv.1, w) hw
      rw [hc] at this
      first
      | exact this.1 rfl
      | exact this.2 rfl

/-- Witness for C2 at a pair with a 2-byte name and a 300-byte value. -/
theorem nameValue_encode_layout_witness :
    (NameValue.mk [10, 20] (List.replicate 300 66)).encode =
      specLengthBytes 2 ++ specLengthBytes 300 ++ [10, 20] ++ List.replicate 300 66 := by
  have h := nameValue_encode_layout (NameValue.mk [10, 20] (List.replicate 300 66))
    (by simp only [List.length_cons, List.length_nil]; norm_num)
    (by simp only [List.length_replicate]; norm_num)
  simp only [List.length_cons, List.length_nil, List.length_replicate] at h
  exact h

theorem sendPrepare_none {r : PreparedRequest} {ov : Option Env}
    (h : build_cgi_stdin r = none) :
    sendPrepare r ov = (build_cgi_env r ov, []) := by
  unfold sendPrepare
  rw [h]

theorem sendPrepare_some {r : PreparedRequest} {ov : Option Env} {b : Bytes}
    (h : build_cgi_stdin r = some b) :
    sendPrepare r ov =
      (dictSet (dictSet (build_cgi_env r ov) (("CONTENT_LENGTH").data)
          (pyStrOfNat b.length))
        (("CONTENT_TYPE").data) (contentTypeOf r), b) := by
  unfold sendPrepare
  rw [h]

/-- C3 (amended): when the override environment does not itself carry the
body-derived keys, a request with no body (or an empty one, so that
`build_cgi_stdin` is `None`) yields an environment with neither
`CONTENT_LENGTH` nor `CONTENT_TYPE` and an empty stdin; a request with a
non-empty body of byte length L yields `CONTENT_LENGTH = str(L)` exactly and
`CONTENT_TYPE` equal to the request's content-type header or the `text/plain`
default. -/
theorem content_length_and_type_keys (r : PreparedRequest) (ov : Option Env)
    (hov : ∀ e, ov = some e → ∀ kv ∈ e,
      kv.1 ≠ ("CONTENT_LENGTH").data ∧ kv.1 ≠ ("CONTENT_TYPE").data) :
    (build_cgi_stdin r = none →
      dictGet (sendPrepare r ov).1 (("CONTENT_LENGTH").data) = none ∧
      dictGet (sendPrepare r ov).1 (("CONTENT_TYPE").data) = none ∧
      (sendPrepare r ov).2 = []) ∧
    (∀ b, r.body = some b → b ≠ [] →
      dictGet (sendPrepare r ov).1 (("CONTENT_LENGTH").data) =
        some (pyStrOfNat b.length) ∧
      dictGet (sendPrepare r ov).1 (("CONTENT_TYPE").data) =
        some (contentTypeOf r) ∧
      (sendPrepare r ov).2 = b) := by
  have hbase := build_cgi_env_no_content_keys r ov hov
  constructor
  · intro hnone
    rw [sendPrepare_none hnone]
    exact ⟨hbase.1, hbase.2, rfl⟩
  · intro b hb hbne
    have hstdin : build_cgi_stdin r = some b := by
      unfold build_cgi_stdin
      rw [hb]
      simp [hbne]
    rw [sendPrepare_some hstdin]
    refine ⟨?_, ?_, rfl⟩
    · rw [dictGet_dictSet_ne _ _ (by decide)]
      exact dictGet_dictSet_self _ _ _
    · exact dictGet_dictSet_self _ _ _

/-- Witness for the amended C3 at a concrete POST request with body `b"hi"`
and a content-type header. -/
theorem content_length_and_type_keys_witness :
    dictGet (sendPrepare jsonBodyRequest none).1 (("CONTENT_LENGTH").data) =
      some (pyStrOfNat 2) ∧
    dictGet (sendPrepare jsonBodyRequest none).1 (("CONTENT_TYPE").data) =
      some (("application/json").data) ∧
    (sendPrepare jsonBodyRequest none).2 = [104, 105] := by
  have h := (content_length_and_type_keys jsonBodyRequest none
    (fun e he => nomatch he)).2 [104, 105] rfl (by decide)
  exact ⟨h.1, h.2.1, h.2.2⟩

/-- C3 counterexample: a request whose body is present but empty (`b""`, byte
length 0) gets no `CONTENT_LENGTH` key at all, not the value `str(0) = "0"`
the claim requires for every present body. -/
theorem content_length_empty_body_counterexample :
    emptyBodyRequest.body = some ([] : Bytes) ∧
    dictGet (sendPrepare emptyBodyRequest none).1 (("CONTENT_LENGTH").data) = none ∧
    (none : Option Text) ≠ some (pyStrOfNat 0) := by
  refine ⟨rfl, ?_, by decide⟩
  rfl

/-- C9: a request whose body is an empty byte string (present, length 0)
makes `build_cgi_stdin` return `None`, so `send` leaves the environment
exactly as `build_cgi_env` built it (no `CONTENT_LENGTH`/`CONTENT_TYPE`),
forwards an empty stdin, and behaves identically to the same request with no
body at all. -/
theorem empty_body_indistinguishable (r : PreparedRequest) (ov : Option Env)
    (h : r.body = some ([] : Bytes)) :
    build_cgi_stdin r = none ∧
    sendPrepare r ov = (build_cgi_env r ov, []) ∧
    sendPrepare r ov = sendPrepare
      ⟨r.method, r.url_hostname, r.path_url, r.url_query, r.headers, none⟩ ov := by
  have h1 : build_cgi_stdin r = none := by
    unfold build_cgi_stdin
    rw [h]
    rfl
  refine ⟨h1, sendPrepare_none h1, ?_⟩
  rw [sendPrepare_none h1,
      sendPrepare_none (r := ⟨r.method, r.url_hostname, r.path_url, r.url_query,
        r.headers, none⟩) rfl]
  rfl

/-- Witness for C9 at a concrete GET request with body `b""`. -/
theorem empty_body_indistinguishable_witness :
    build_cgi_stdin emptyBodyRequest = none ∧
    sendPrepare emptyBodyRequest none = (build_cgi_env emptyBodyRequest none, []) :=
  ⟨(empty_body_indistinguishable emptyBodyRequest none rfl).1,
   (empty_body_indistinguishable emptyBodyRequest none rfl).2.1⟩

/-- C4: raw output is parsed as a direct HTTP/1.x message (status, reason and
headers taken from its own status line and header block) exactly when it
starts with the ASCII bytes `HTTP/`; any other output is parsed as CGI
headers-only output (the header block of the raw bytes behind a synthesized
placeholder status line), and when that output has no `Status` header the
returned response has status code 200. -/
theorem response_mode_and_default_status (raw : Text) :
    (textStarts raw ("HTTP/").data = true →
      ∀ p : ParsedHttp, httpParse raw = some p →
        build_response raw = Except.ok ⟨(p.status : Int), p.reason, p.headers, p.body⟩) ∧
    (textStarts raw ("HTTP/").data = false →
      ∀ p : ParsedHttp, httpParse (("HTTP/1.1 200\n").data ++ raw) = some p →
        ciLookup p.headers ("status").data = none →
        build_response raw = Except.ok ⟨200, ("Okay").data, p.headers, p.body⟩) := by
  constructor
  · intro hs p hp
    unfold build_response
    rw [hs]
    simp only [Bool.not_true, Bool.false_eq_true, if_false, hp]
  · intro hs p hp hst
    unfold build_response
    rw [hs]
    simp only [Bool.not_false, if_true, hp, hst, Option.getD_none]

/-- Witness for C4: headers-only output with no `Status` header parses to a
status-200 response. -/
theorem response_mode_and_default_status_witness :
    build_response (("X-A: b\r\n\r\nhello").data) =
      Except.ok ⟨200, ("Okay").data, [(("X-A").data, ("b").data)], ("hello").data⟩ :=
  (response_mode_and_default_status (("X-A: b\r\n\r\nhello").data)).2
    (by decide)
    ⟨200, [], [(("X-A").data, ("b").data)], ("hello").data⟩
    (by decide) (by decide)

/-- C8 (amended): a plain-CGI subprocess exiting nonzero still returns the
normally parsed response whenever it produced *non-empty* stdout that parses
as a response; a nonzero exit with empty stdout — even though empty output
would itself parse (to a default 200) — or with stdout that fails to parse is
a hard `ConnectionError` carrying the captured stderr and stdout. -/
theorem nonzero_exit_with_output (rc : Int) (out err : Text) (hrc : rc ≠ 0) :
    (∀ resp, out ≠ [] → build_response out = Except.ok resp →
      execute_send (RunOutcome.completed rc out err) = Except.ok resp) ∧
    (out = [] ∨ (∃ e, build_response out = Except.error e) →
      execute_send (RunOutcome.completed rc out err) =
        Except.error (PyErr.connectionError [err, out])) := by
  constructor
  · intro resp hne hresp
    simp only [execute_send]
    rw [if_pos hrc, if_pos hne, hresp]
  · intro hbad
    simp only [execute_send]
    rw [if_pos hrc]
    by_cases hout : out = []
    · rw [if_neg (fun hcon => hcon hout)]
    · rcases hbad with hempty | ⟨e, he⟩
      · exact absurd hempty hout
      · rw [if_pos hout, he]

/-- Witness for the amended C8: exit code 1 with stdout
`b"Status: 500\r\n\r\nfail"` yields a parsed status-500 response. -/
theorem nonzero_exit_with_output_witness :
    execute_send (RunOutcome.completed 1 (("Status: 500\r\n\r\nfail").data)
        (("err").data)) =
      Except.ok ⟨500, [], [(("Status").data, ("500").data)], ("fail").data⟩ :=
  (nonzero_exit_with_output 1 (("Status: 500\r\n\r\nfail").data) (("err").data)
      (by decide)).1
    ⟨500, [], [(("Status").data, ("500").data)], ("fail").data⟩
    (by decide) (by rfl)

/-- C8 counterexample: with exit code 1 and empty stdout, the captured stdout
*does* parse as a response (the 200 default), yet the call raises
`ConnectionError` instead of returning it — refuting "returns the normally
parsed response whenever the captured stdout parses as a response". -/
theorem nonzero_exit_empty_stdout_counterexample :
    build_response [] = Except.ok ⟨200, ("Okay").data, [], []⟩ ∧
    execute_send (RunOutcome.completed 1 [] (("oops").data)) =
      Except.error (PyErr.connectionError [("oops").data, []]) :=
  ⟨rfl, rfl⟩

/-- Once an exchange is in the `error` state, no later record changes that:
an end record promotes only non-error exchanges. -/
theorem awaitStep_error_stable (req_id : Nat) (ar : ActiveRequest) (r : Record)
    (h : ar.state = State.error) :
    (awaitStep req_id ar r).state = State.error := by
  unfold awaitStep
  by_cases h1 : req_id ≠ r.header.request_id
  · rw [if_pos h1]; exact h
  · rw [if_neg h1]
    simp only [RecordType.stdout, RecordType.stderr, RecordType.end_]
    by_cases h2 : r.header.type = 6 <;>
      by_cases h3 : r.header.type = 7 <;>
        by_cases h4 : r.header.type = 3 <;>
          simp_all

theorem awaitLoop_error_stable (req_id : Nat) (ar : ActiveRequest)
    (rs : List Record) (h : ar.state = State.error) :
    (rs.foldl (awaitStep req_id) ar).state = State.error := by
  induction rs generalizing ar with
  | nil => exact h
  | cons r rs ih => exact ih _ (awaitStep_error_stable _ _ _ h)

/-- A stderr record carrying the exchange's request ID puts it in `error`. -/
theorem awaitStep_stderr (req_id : Nat) (ar : ActiveRequest) (r : Record)
    (hid : r.header.request_id = req_id)
    (htyp : r.header.type = RecordType.stderr) :
    (awaitStep req_id ar r).state = State.error := by
  unfold awaitStep
  rw [if_neg (by rw [hid]; exact fun hcon => hcon rfl)]
  simp [htyp, RecordType.stderr, RecordType.end_]

/-- C6 (amended): an exchange that receives a Stderr record with its request
ID before an End-Request record ends the receive loop in state `error` — even
when an End-Request record arrives afterwards — and the adapter call then
fails; but it fails with the generic `ConnectionError('Invalid response')`,
which does not carry the captured stderr-origin bytes (they remain only in
the exchange's content buffer). -/
theorem stderr_before_end_fails (req_id : Nat) (pre post : List Record)
    (r : Record) (hid : r.header.request_id = req_id)
    (htyp : r.header.type = RecordType.stderr) :
    (awaitLoop req_id (pre ++ r :: post)).state = State.error ∧
    fcgiFinish req_id (pre ++ r :: post) =
      Except.error (PyErr.connectionError [("Invalid response").data]) := by
  have hstate : (awaitLoop req_id (pre ++ r :: post)).state = State.error := by
    unfold awaitLoop
    rw [List.foldl_append, List.foldl_cons]
    exact awaitLoop_error_stable _ _ _ (awaitStep_stderr _ _ _ hid htyp)
  refine ⟨hstate, ?_⟩
  unfold fcgiFinish
  rw [if_neg ?hcond]
  case hcond =>
    rw [hstate]
    exact fun hcon => nomatch hcon

/-- Witness for the amended C6 at a concrete stream `[stderr b"boom", end]`. -/
theorem stderr_before_end_fails_witness :
    (awaitLoop 1 [Record.create RecordType.stderr (textToBytes ("boom").data) 1,
        Record.create RecordType.end_ [] 1]).state = State.error ∧
    fcgiFinish 1 [Record.create RecordType.stderr (textToBytes ("boom").data) 1,
        Record.create RecordType.end_ [] 1] =
      Except.error (PyErr.connectionError [("Invalid response").data]) :=
  stderr_before_end_fails 1 []
    [Record.create RecordType.end_ [] 1]
    (Record.create RecordType.stderr (textToBytes ("boom").data) 1) rfl rfl

/-- C6 counterexample: the error raised after a Stderr-then-End stream is the
constant `ConnectionError('Invalid response')` — identical for two different
stderr payloads, so it cannot be a BackendError carrying the captured
stderr-origin bytes; those bytes are only accumulated in the content buffer. -/
theorem stderr_bytes_not_attached_counterexample :
    fcgiFinish 1 [Record.create RecordType.stderr (textToBytes ("oops").data) 1,
        Record.create RecordType.end_ [] 1] =
      Except.error (PyErr.connectionError [("Invalid response").data]) ∧
    fcgiFinish 1 [Record.create RecordType.stderr (textToBytes ("yikes!").data) 1,
        Record.create RecordType.end_ [] 1] =
      fcgiFinish 1 [Record.create RecordType.stderr (textToBytes ("oops").data) 1,
        Record.create RecordType.end_ [] 1] ∧
    (awaitLoop 1 [Record.create RecordType.stderr (textToBytes ("oops").data) 1,
        Record.create RecordType.end_ [] 1]).content = textToBytes ("oops").data :=
  ⟨rfl, rfl, rfl⟩

theorem acquire_eq_found {x : Option ActiveRequest} {rest : RequestTable} {k : Nat}
    (hf : rest.findIdx? (fun slot => slot = none) = some k) :
    acquireReqId (x :: rest) = (k + 1, x :: rest) := by
  simp only [acquireReqId, indexNoneFrom1, hf, Option.map_some']

theorem acquire_eq_grow {x : Option ActiveRequest} {rest : RequestTable}
    (hf : rest.findIdx? (fun slot => slot = none) = none) :
    acquireReqId (x :: rest) = ((x :: rest).length, (x :: rest) ++ [none]) := by
  simp only [acquireReqId, indexNoneFrom1, hf, Option.map_none']

/-- C7: request-ID lifecycle.  The acquired ID is the lowest integer ≥ 1 whose
slot is unassigned — every lower slot ≥ 1 holds an in-flight request — within
[1, 65535] while the table has not outgrown the ID space (at most 65535
entries); the acquired slot is free at acquisition (growing the table adds a
free slot); a finished exchange clears its slot; and a second exchange run
after a first one on a fresh client reuses ID 1 but produces exactly the
result of running on a fresh client — records of the first exchange's stream
are never attributed to the second exchange. -/
theorem request_id_lifecycle (reqs : RequestTable) (rs1 rs2 : List Record)
    (hne : reqs ≠ []) (hlen : reqs.length ≤ 65535) :
    (1 ≤ (acquireReqId reqs).1 ∧ (acquireReqId reqs).1 ≤ 65535 ∧
      (acquireReqId reqs).2[(acquireReqId reqs).1]? = some none ∧
      (∀ j, 1 ≤ j → j < (acquireReqId reqs).1 → ∃ ar, reqs[j]? = some (some ar))) ∧
    ((runExchange reqs rs1).2.2[(runExchange reqs rs1).2.1]? = some none) ∧
    ((runExchange ((runExchange [none] rs1).2.2) rs2).1 =
        (runExchange [none] rs2).1 ∧
      (runExchange [none] rs1).2.1 = 1 ∧
      (runExchange ((runExchange [none] rs1).2.2) rs2).2.1 = 1) := by
  obtain ⟨x, rest, rfl⟩ : ∃ x rest, reqs = x :: rest := by
    cases reqs with
    | nil => exact absurd rfl hne
    | cons a b => exact ⟨a, b, rfl⟩
  simp only [List.length_cons] at hlen
  refine ⟨?_, ?_, rfl, rfl, rfl⟩
  · -- lowest-free acquisition
    cases hf : rest.findIdx? (fun slot => slot = none) with
    | some k =>
        obtain ⟨hk, hpk, hlow⟩ := List.findIdx?_eq_some_iff_getElem.mp hf
        rw [acquire_eq_found hf]
        refine ⟨by omega, by omega, ?_, ?_⟩
        · rw [List.getElem?_cons_succ, List.getElem?_eq_getElem hk]
          simp only [decide_eq_true_eq] at hpk
          rw [hpk]
        · intro j h1 hj
          obtain ⟨j', rfl⟩ : ∃ j', j = j' + 1 := ⟨j - 1, by omega⟩
          have hj' : j' < k := by omega
          have hjr : j' < rest.length := Nat.lt_trans hj' hk
          have hne' := hlow j' hj'
          simp only [decide_eq_true_eq] at hne'
          have hval : rest[j']? = some (rest.get ⟨j', hjr⟩) := by
            rw [List.getElem?_eq_getElem hjr]
            rfl
          rcases hcase : rest.get ⟨j', hjr⟩ with _ | ar
          · exact absurd hcase hne'
          · exact ⟨ar, by rw [List.getElem?_cons_succ, hval, hcase]⟩
    | none =>
        rw [acquire_eq_grow hf]
        refine ⟨by simp, by simp only [List.length_cons]; omega, ?_, ?_⟩
        · exact List.getElem?_concat_length _ _
        · intro j h1 hj
          simp only [List.length_cons] at hj
          obtain ⟨j', rfl⟩ : ∃ j', j = j' + 1 := ⟨j - 1, by omega⟩
          have hj' : j' < rest.length := by omega
          have hne' := List.findIdx?_eq_none_iff.mp hf (rest.get ⟨j', hj'⟩)
            (List.get_mem rest j' hj')
          simp only [decide_eq_false_iff_not] at hne'
          have hval : rest[j']? = some (rest.get ⟨j', hj'⟩) := by
            rw [List.getElem?_eq_getElem hj']
            rfl
          rcases hcase : rest.get ⟨j', hj'⟩ with _ | ar
          · exact absurd hcase hne'
          · exact ⟨ar, by rw [List.getElem?_cons_succ, hval, hcase]⟩
  · -- the slot is cleared when the exchange finishes
    show (((acquireReqId (x :: rest)).2.set (acquireReqId (x :: rest)).1
        (some ⟨(acquireReqId (x :: rest)).1, State.send, []⟩)).set
        (acquireReqId (x :: rest)).1 none)[(acquireReqId (x :: rest)).1]? = some none
    rw [List.set_set]
    cases hf : rest.findIdx? (fun slot => slot = none) with
    | some k =>
        obtain ⟨hk, -, -⟩ := List.findIdx?_eq_some_iff_getElem.mp hf
        rw [acquire_eq_found hf]
        rw [List.getElem?_set_self']
        have hlt : k + 1 < (x :: rest).length := by
          simp only [List.length_cons]; omega
        simp [List.getElem?_eq_getElem hlt]
    | none =>
        rw [acquire_eq_grow hf]
        rw [List.getElem?_set_self']
        have hlt : (x :: rest).length < ((x :: rest) ++ [none]).length := by
          simp
        simp [List.getElem?_eq_getElem hlt]

/-- Witness for C7 on a table with slot 1 occupied and slot 2 free: the next
exchange acquires ID 2, and the table afterwards has slot 2 cleared. -/
theorem request_id_lifecycle_witness :
    (1 ≤ (acquireReqId [none, some ⟨1, State.send, []⟩, none]).1 ∧
      (acquireReqId [none, some ⟨1, State.send, []⟩, none]).1 ≤ 65535 ∧
      (acquireReqId [none, some ⟨1, State.send, []⟩,
        none]).2[(acquireReqId [none, some ⟨1, State.send, []⟩, none]).1]? =
        some none ∧
      (∀ j, 1 ≤ j → j < (acquireReqId [none, some ⟨1, State.send, []⟩, none]).1 →
        ∃ ar, ([none, some ⟨1, State.send, []⟩, none] : RequestTable)[j]? =
          some (some ar))) ∧
    ((runExchange [none, some ⟨1, State.send, []⟩, none]
        []).2.2[(runExchange [none, some ⟨1, State.send, []⟩, none] []).2.1]? =
      some none) ∧
    ((runExchange ((runExchange [none] []).2.2) []).1 = (runExchange [none] []).1 ∧
      (runExchange [none] []).2.1 = 1 ∧
      (runExchange ((runExchange [none] []).2.2) []).2.1 = 1) :=
  request_id_lifecycle [none, some ⟨1, State.send, []⟩, none] [] []
    (by decide) (by decide)

/-- A record whose `content_length` exceeds the uint16 range cannot be packed:
`struct.pack` raises. -/
theorem record_encode_none {r : Record} (h : 65535 < r.header.content_length) :
    r.encode = none := by
  unfold Record.encode RecordHeader.encode
  rw [if_neg (fun hcon => absurd hcon.2.2.2.1 (by omega))]
  rfl

/-- A record created with an in-range type, request ID and content length
encodes successfully. -/
theorem record_create_encode_some (t : Nat) (c : Bytes) (req_id : Nat)
    (ht : t < 256) (hreq : req_id < 65536) (hc2 : c.length < 65536) :
    ∃ v, (Record.create t c req_id).encode = some v := by
  unfold Record.encode Record.create RecordHeader.encode
  split
  · exact ⟨_, rfl⟩
  · rename_i hcon
    exact absurd ⟨(by decide : FASTCGI_VERSION < 256), ht, hreq, hc2,
      (by decide : (0 : Nat) < 256)⟩ hcon

/-- C10: `Record.create` stores the full content length in the header without
splitting, and `execute_send` frames the entire encoded environment as one
Params record and the entire body as one Stdin record; hence a record whose
content exceeds 65535 bytes fails to encode (uint16 `content_length`
overflow), and a packet whose environment encoding or body exceeds 65535
bytes cannot be assembled at all. -/
theorem oversized_record_cannot_be_sent (t : Nat) (c : Bytes) (req_id : Nat)
    (env : Env) (stdin : Bytes) (hc : 65535 < c.length)
    (hp : 65535 < (encodeEnvParams env).length) (hs : 65535 < stdin.length) :
    (Record.create t c req_id).header.content_length = c.length ∧
    (Record.create t c req_id).encode = none ∧
    buildPacket env none req_id = none ∧
    buildPacket [] (some stdin) req_id = none := by
  refine ⟨rfl, record_encode_none hc, ?_, ?_⟩
  · by_cases hreq : req_id < 65536
    · obtain ⟨v, hv⟩ := record_create_encode_some RecordType.begin
        beginRequestResponderBody req_id (by decide) hreq (by decide)
      rw [buildPacket, hv, Option.some_bind,
        if_pos (show 0 < (encodeEnvParams env).length by omega),
        record_encode_none hp, Option.none_bind]
    · have h1 : (Record.create RecordType.begin beginRequestResponderBody
          req_id).encode = none := by
        unfold Record.encode Record.create RecordHeader.encode
        rw [if_neg (fun hcon => hreq hcon.2.2.1)]
        rfl
      rw [buildPacket, h1, Option.none_bind]
  · by_cases hreq : req_id < 65536
    · obtain ⟨v, hv⟩ := record_create_encode_some RecordType.begin
        beginRequestResponderBody req_id (by decide) hreq (by decide)
      obtain ⟨v3, hv3⟩ := record_create_encode_some RecordType.params [] req_id
        (by decide) hreq (by decide)
      have hne : stdin ≠ [] := by
        intro he
        rw [he] at hs
        simp at hs
      rw [buildPacket, hv, Option.some_bind,
        if_neg (show ¬ 0 < (encodeEnvParams ([] : Env)).length by simp [encodeEnvParams]),
        Option.some_bind, hv3, Option.some_bind,
        if_pos hne, record_encode_none hs, Option.none_bind]
    · have h1 : (Record.create RecordType.begin beginRequestResponderBody
          req_id).encode = none := by
        unfold Record.encode Record.create RecordHeader.encode
        rw [if_neg (fun hcon => hreq hcon.2.2.1)]
        rfl
      rw [buildPacket, h1, Option.none_bind]

/-- Witness for C10 with a 65536-byte record content, an environment whose
encoding is 70006 bytes, and a 65536-byte body. -/
theorem oversized_record_cannot_be_sent_witness :
    (Record.create RecordType.stdin (List.replicate 65536 0) 1).header.content_length =
      (List.replicate 65536 (0 : Nat)).length ∧
    (Record.create RecordType.stdin (List.replicate 65536 0) 1).encode = none ∧
    buildPacket [(("A").data, List.replicate 70000 'b')] none 1 = none ∧
    buildPacket [] (some (List.replicate 65536 0)) 1 = none := by
  have key : ∀ v : Text, v.length = 70000 →
      65535 < (encodeEnvParams [(("A").data, v)]).length := by
    intro v hvlen
    have h0 : encodeEnvParams [(("A").data, v)] =
        (NameValue.mk (textToBytes ("A").data) (textToBytes v)).encode := by
      simp only [encodeEnvParams, List.foldl_cons, List.foldl_nil, List.nil_append]
    have ha : (textToBytes ("A").data).length = 1 := rfl
    have hv : (textToBytes v).length = 70000 := by
      rw [textToBytes, List.length_map, hvlen]
    have hP : ∀ x : Nat, (packUL x).length = 4 := fun x => rfl
    rw [h0]
    simp only [NameValue.encode, ha, hv,
      if_pos (by norm_num : (1 : Nat) < 128),
      if_neg (by norm_num : ¬ (70000 : Nat) < 128),
      List.length_append, hP]
    norm_num
  have hp : 65535 < (encodeEnvParams
      [(("A").data, List.replicate 70000 'b')]).length :=
    key (List.replicate 70000 'b') (List.length_replicate 70000 'b')
  exact oversized_record_cannot_be_sent RecordType.stdin (List.replicate 65536 0) 1
    [(("A").data, List.replicate 70000 'b')] (List.replicate 65536 0)
    (by rw [List.length_replicate]; norm_num) hp
    (by rw [List.length_replicate]; norm_num)

end RequestsCgi
